import Mathlib

/-!
Verification of the event confirmation pipeline of this repository:
the webhook receiver (src/webhooks/receiver.py), the event processor
(src/webhooks/event_processor.py) and the RPC reliability client
(src/blockchain/rpc_client.py), shallowly embedded in Lean 4.

Python dicts keyed by strings are embedded as association lists,
datetime.utcnow() timestamps are passed in as explicit string
parameters, and file I/O is embedded as explicit state passing with a
schedule of write outcomes where write failures matter (the code logs
and swallows IOError on writes).
-/

namespace Law

/-! ## Association list helpers (Python dict semantics) -/

def alistGet {α : Type} : List (String × α) → String → Option α
| [], _ => none
| (k, v) :: rest, key => if k = key then some v else alistGet rest key

def alistSet {α : Type} : List (String × α) → String → α → List (String × α)
| [], key, v => [(key, v)]
| (k, w) :: rest, key, v =>
  if k = key then (k, v) :: rest else (k, w) :: alistSet rest key v

theorem alistGet_set_same {α : Type} (m : List (String × α)) (k : String) (v : α) :
    alistGet (alistSet m k v) k = some v := by
  induction m with
  | nil => simp [alistSet, alistGet]
  | cons hd tl ih =>
    by_cases h : hd.1 = k
    · simp [alistSet, alistGet, h]
    · simp only [alistSet, alistGet, h, if_false]
      exact ih

theorem alistGet_set_other {α : Type} (m : List (String × α)) (k k' : String) (v : α)
    (h : k ≠ k') : alistGet (alistSet m k v) k' = alistGet m k' := by
  induction m with
  | nil => simp [alistSet, alistGet, h]
  | cons hd tl ih =>
    by_cases hk : hd.1 = k
    · simp only [alistSet, alistGet, hk, if_true]
      have : k ≠ k' := h
      simp [alistGet, this]
    · simp only [alistSet, alistGet, hk, if_false]
      by_cases hk' : hd.1 = k'
      · simp [alistGet, hk']
      · simp only [alistGet, hk', if_false]
        exact ih

/-! ## Event processor data model (event_processor.py) -/

/-- Trade status string constants, from the TradeStatus enum. -/
def TradeStatus.pending : String := "pending"

def TradeStatus.confirmed : String := "confirmed"

def TradeStatus.completed : String := "completed"

def TradeStatus.failed : String := "failed"

/-- The Event dataclass of event_processor.py.  The opaque `data` payload
is embedded as an association list of strings. -/
structure Event where
  event_id : String
  trade_id : String
  tx_hash : String
  confirmation_count : Int
  timestamp : String
  event_type : String
  data : List (String × String)
  retry_count : Nat
deriving DecidableEq

/-- One entry of a trade's event history, as appended by _process_event. -/
structure EventSummary where
  event_id : String
  tx_hash : String
  confirmation_count : Int
  timestamp : String
  event_type : String
deriving DecidableEq

/-- A trade record as stored in bot_data.json under "trades".  The
status is kept as a string, exactly as in the JSON document (the FAILED
status may be written by actors outside the processor).  `confirmed_at`
and `completed_at` are absent until the corresponding transition fires. -/
structure Trade where
  status : String
  created_at : String
  confirmations : Int
  events : List EventSummary
  confirmed_at : Option String
  completed_at : Option String
deriving DecidableEq

/-- The fresh trade record _process_event creates when the trade_id is
absent from the store. -/
def newTrade (now : String) : Trade :=
  { status := TradeStatus.pending
    created_at := now
    confirmations := 0
    events := []
    confirmed_at := none
    completed_at := none }

def eventSummary (e : Event) : EventSummary :=
  { event_id := e.event_id
    tx_hash := e.tx_hash
    confirmation_count := e.confirmation_count
    timestamp := e.timestamp
    event_type := e.event_type }

/-- The per-trade update performed by _process_event on the loaded (or
freshly created) trade record: monotonic confirmation update, history
append, then the status transition block (lines 216-247). -/
def stepTrade (threshold : Int) (now : String) (trade0 : Trade) (e : Event) : Trade :=
  let trade1 : Trade :=
    { trade0 with
      confirmations := max trade0.confirmations e.confirmation_count
      events := trade0.events ++ [eventSummary e] }
  if e.confirmation_count ≥ threshold then
    let trade2 : Trade :=
      if trade1.status = TradeStatus.pending then
        { trade1 with status := TradeStatus.confirmed, confirmed_at := some now }
      else trade1
    if e.event_type = "final_confirmation" then
      { trade2 with status := TradeStatus.completed, completed_at := some now }
    else trade2
  else trade1

/-- The trades map as stored in bot_data.json. -/
def Trades := List (String × Trade)

/-- _process_event: load the trade for e.trade_id (creating a PENDING
record with zero confirmations when absent), apply the update, store it
back. -/
def processEvent (threshold : Int) (now : String) (trades : Trades) (e : Event) : Trades :=
  let trade0 := (alistGet trades e.trade_id).getD (newTrade now)
  alistSet trades e.trade_id (stepTrade threshold now trade0 e)

/-- Sequential application of a list of events (each paired with the
wall-clock string current when it is dequeued), as the consumer loop
does. -/
def processEvents (threshold : Int) (steps : List (Event × String)) (trades : Trades) : Trades :=
  steps.foldl (fun tr step => processEvent threshold step.2 tr step.1) trades

theorem processEvent_get_same (threshold : Int) (now : String) (trades : Trades) (e : Event) :
    alistGet (processEvent threshold now trades e) e.trade_id =
      some (stepTrade threshold now ((alistGet trades e.trade_id).getD (newTrade now)) e) := by
  unfold processEvent
  exact alistGet_set_same _ _ _

theorem processEvent_get_other (threshold : Int) (now : String) (trades : Trades) (e : Event)
    (tid : String) (h : e.trade_id ≠ tid) :
    alistGet (processEvent threshold now trades e) tid = alistGet trades tid := by
  unfold processEvent
  exact alistGet_set_other _ _ _ _ h

theorem pending_ne_confirmed : TradeStatus.pending ≠ TradeStatus.confirmed := by decide

theorem pending_ne_completed : TradeStatus.pending ≠ TradeStatus.completed := by decide

theorem confirmed_ne_completed : TradeStatus.confirmed ≠ TradeStatus.completed := by decide

/-- A trade already CONFIRMED with 5 accumulated confirmations, used to
test the completion rule. -/
def c1Trade : Trade :=
  { status := TradeStatus.confirmed
    created_at := "t0"
    confirmations := 5
    events := []
    confirmed_at := some "t0c"
    completed_at := none }

/-- A finality-tagged event whose own confirmation_count (1) is below
the threshold (3). -/
def c1Event : Event :=
  { event_id := "evt-c1"
    trade_id := "trade-c1"
    tx_hash := "0xc1"
    confirmation_count := 1
    timestamp := "t1"
    event_type := "final_confirmation"
    data := []
    retry_count := 0 }

/-- C1 counterexample: a trade whose accumulated confirmations (5)
already meet the threshold (3) receives a finality-tagged event whose
own confirmation_count is 1.  The claim says the trade completes
regardless of that event's own confirmation_count; the code gates the
completion branch on the event's own confirmation_count, so the trade
stays CONFIRMED and completed_at is never recorded. -/
theorem C1_counterexample :
    c1Trade.confirmations ≥ 3 ∧
    c1Event.event_type = "final_confirmation" ∧
    (alistGet (processEvent 3 "t1" [("trade-c1", c1Trade)] c1Event) "trade-c1").map
      Trade.status = some TradeStatus.confirmed ∧
    (alistGet (processEvent 3 "t1" [("trade-c1", c1Trade)] c1Event) "trade-c1").map
      Trade.completed_at = some none := by
  refine ⟨by decide, rfl, ?_, ?_⟩ <;> rfl

/-- C1 (amended): for a trade whose status is PENDING or CONFIRMED, the
applied event drives the trade to COMPLETED (recording completed_at)
exactly when the event's own confirmation_count meets the threshold and
its type is the finality tag "final_confirmation" (at which point the
trade's accumulated confirmations also meet the threshold, since they
are updated to at least the event's count first); an event whose
confirmation_count meets the threshold but whose type is ordinary
leaves the trade CONFIRMED, not COMPLETED. -/
theorem C1_amended_completion (threshold : Int) (now : String) (trades : Trades)
    (e : Event) (tr : Trade) (hget : alistGet trades e.trade_id = some tr)
    (hst : tr.status = TradeStatus.pending ∨ tr.status = TradeStatus.confirmed) :
    ∃ tr', alistGet (processEvent threshold now trades e) e.trade_id = some tr' ∧
      (tr'.status = TradeStatus.completed ↔
        e.confirmation_count ≥ threshold ∧ e.event_type = "final_confirmation") ∧
      (tr'.status = TradeStatus.completed →
        tr'.completed_at = some now ∧ tr'.confirmations ≥ threshold) ∧
      (e.confirmation_count ≥ threshold → e.event_type ≠ "final_confirmation" →
        tr'.status = TradeStatus.confirmed) := by
  refine ⟨stepTrade threshold now tr e, ?_, ?_, ?_, ?_⟩
  · rw [processEvent_get_same, hget]
    rfl
  · constructor
    · intro hcomp
      by_cases hc : e.confirmation_count ≥ threshold
      · by_cases hty : e.event_type = "final_confirmation"
        · exact ⟨hc, hty⟩
        · exfalso
          rcases hst with hp | hco
          · simp [stepTrade, hc, hty, hp] at hcomp
            exact confirmed_ne_completed hcomp
          · simp [stepTrade, hc, hty, hco, pending_ne_confirmed.symm] at hcomp
            exact confirmed_ne_completed (hco ▸ hcomp)
      · exfalso
        rcases hst with hp | hco
        · simp [stepTrade, hc, hp] at hcomp
          exact pending_ne_completed (hp ▸ hcomp)
        · simp [stepTrade, hc] at hcomp
          exact confirmed_ne_completed (hco ▸ hcomp)
    · rintro ⟨hc, hty⟩
      simp [stepTrade, hc, hty]
  · intro hcomp
    by_cases hc : e.confirmation_count ≥ threshold
    · by_cases hty : e.event_type = "final_confirmation"
      · constructor
        · simp [stepTrade, hc, hty]
        · have hmax : max tr.confirmations e.confirmation_count ≥ threshold :=
            le_trans hc (le_max_right _ _)
          rcases hst with hp | hco
          · simp [stepTrade, hc, hty, hp]
          · simp [stepTrade, hc, hty, hco, pending_ne_confirmed.symm]
      · exfalso
        rcases hst with hp | hco
        · simp [stepTrade, hc, hty, hp] at hcomp
          exact confirmed_ne_completed hcomp
        · simp [stepTrade, hc, hty, hco, pending_ne_confirmed.symm] at hcomp
          exact confirmed_ne_completed (hco ▸ hcomp)
    · exfalso
      rcases hst with hp | hco
      · simp [stepTrade, hc] at hcomp
        exact pending_ne_completed (hp ▸ hcomp)
      · simp [stepTrade, hc] at hcomp
        exact confirmed_ne_completed (hco ▸ hcomp)
  · intro hc hty
    rcases hst with hp | hco
    · simp [stepTrade, hc, hty, hp]
    · simp [stepTrade, hc, hty, hco, pending_ne_confirmed.symm]

/-- Witness for C1_amended_completion: at threshold 3, the CONFIRMED
trade c1Trade receiving an ordinary event with confirmation_count 10
stays CONFIRMED. -/
theorem C1_amended_witness :
    ∃ tr', alistGet (processEvent 3 "t2" [("trade-c1", c1Trade)]
        { event_id := "evt-c1b", trade_id := "trade-c1", tx_hash := "0xc1",
          confirmation_count := 10, timestamp := "t2", event_type := "confirmation",
          data := [], retry_count := 0 }) "trade-c1" = some tr' ∧
      tr'.status = TradeStatus.confirmed := by
  obtain ⟨tr', hget, _, _, hord⟩ :=
    C1_amended_completion 3 "t2" [("trade-c1", c1Trade)]
      { event_id := "evt-c1b", trade_id := "trade-c1", tx_hash := "0xc1",
        confirmation_count := 10, timestamp := "t2", event_type := "confirmation",
        data := [], retry_count := 0 }
      c1Trade rfl (Or.inr rfl)
  exact ⟨tr', hget, hord (by decide) (by decide)⟩

theorem failed_ne_pending : TradeStatus.failed ≠ TradeStatus.pending := by decide

/-- C7: for a trade whose status is PENDING, an applied event with
confirmation_count at or above the threshold records confirmed_at and
moves the status to CONFIRMED (an event that is additionally
finality-tagged continues to COMPLETED in the same application, per the
completion rule), and an event below the threshold leaves the trade
PENDING with confirmed_at unchanged. -/
theorem C7_pending_to_confirmed (threshold : Int) (now : String) (trades : Trades)
    (e : Event) (tr : Trade) (hget : alistGet trades e.trade_id = some tr)
    (hp : tr.status = TradeStatus.pending) :
    ∃ tr', alistGet (processEvent threshold now trades e) e.trade_id = some tr' ∧
      (e.confirmation_count ≥ threshold →
        tr'.confirmed_at = some now ∧
        tr'.status = (if e.event_type = "final_confirmation" then TradeStatus.completed
          else TradeStatus.confirmed)) ∧
      (e.confirmation_count < threshold →
        tr'.status = TradeStatus.pending ∧ tr'.confirmed_at = tr.confirmed_at) := by
  refine ⟨stepTrade threshold now tr e, ?_, ?_, ?_⟩
  · rw [processEvent_get_same, hget]
    rfl
  · intro hc
    by_cases hty : e.event_type = "final_confirmation"
    · simp [stepTrade, hc, hty, hp]
    · simp [stepTrade, hc, hty, hp]
  · intro hlt
    have hc : ¬ (e.confirmation_count ≥ threshold) := not_le.mpr hlt
    simp [stepTrade, hc, hp]

/-- Witness for C7_pending_to_confirmed: at threshold 3, a fresh
PENDING trade moves to CONFIRMED with confirmed_at recorded on an
ordinary event with confirmation_count 3, and stays PENDING on one with
confirmation_count 2. -/
theorem C7_witness :
    (∃ tr', alistGet (processEvent 3 "t1" [("trade-c7", newTrade "t0")]
        { event_id := "evt-c7a", trade_id := "trade-c7", tx_hash := "0xc7",
          confirmation_count := 3, timestamp := "t1", event_type := "confirmation",
          data := [], retry_count := 0 }) "trade-c7" = some tr' ∧
      tr'.status = TradeStatus.confirmed ∧ tr'.confirmed_at = some "t1") ∧
    (∃ tr', alistGet (processEvent 3 "t1" [("trade-c7", newTrade "t0")]
        { event_id := "evt-c7b", trade_id := "trade-c7", tx_hash := "0xc7",
          confirmation_count := 2, timestamp := "t1", event_type := "confirmation",
          data := [], retry_count := 0 }) "trade-c7" = some tr' ∧
      tr'.status = TradeStatus.pending) := by
  constructor
  · obtain ⟨tr', hget, habove, _⟩ :=
      C7_pending_to_confirmed 3 "t1" [("trade-c7", newTrade "t0")]
        { event_id := "evt-c7a", trade_id := "trade-c7", tx_hash := "0xc7",
          confirmation_count := 3, timestamp := "t1", event_type := "confirmation",
          data := [], retry_count := 0 }
        (newTrade "t0") rfl rfl
    obtain ⟨hca, hst⟩ := habove (by decide)
    refine ⟨tr', hget, ?_, hca⟩
    rw [hst, if_neg (by decide)]
  · obtain ⟨tr', hget, _, hbelow⟩ :=
      C7_pending_to_confirmed 3 "t1" [("trade-c7", newTrade "t0")]
        { event_id := "evt-c7b", trade_id := "trade-c7", tx_hash := "0xc7",
          confirmation_count := 2, timestamp := "t1", event_type := "confirmation",
          data := [], retry_count := 0 }
        (newTrade "t0") rfl rfl
    exact ⟨tr', hget, (hbelow (by decide)).1⟩

/-- C9: the FAILED status is not terminal under the processor — a trade
whose status is "failed" (set externally) moves to COMPLETED, with
completed_at recorded, when a finality-tagged event whose
confirmation_count meets the threshold is applied, because the
completion branch checks only the event's confirmation count and type,
never the current status. -/
theorem C9_failed_not_terminal (threshold : Int) (now : String) (trades : Trades)
    (e : Event) (tr : Trade) (hget : alistGet trades e.trade_id = some tr)
    (hf : tr.status = TradeStatus.failed)
    (hc : e.confirmation_count ≥ threshold)
    (hty : e.event_type = "final_confirmation") :
    ∃ tr', alistGet (processEvent threshold now trades e) e.trade_id = some tr' ∧
      tr'.status = TradeStatus.completed ∧ tr'.completed_at = some now := by
  refine ⟨stepTrade threshold now tr e, ?_, ?_, ?_⟩
  · rw [processEvent_get_same, hget]
    rfl
  · simp [stepTrade, hc, hty, hf, failed_ne_pending]
  · simp [stepTrade, hc, hty, hf, failed_ne_pending]

/-- Witness for C9_failed_not_terminal: a concrete externally-FAILED
trade completes on a finality event meeting the threshold. -/
theorem C9_witness :
    ∃ tr', alistGet (processEvent 3 "t2" [("trade-c9",
        { status := TradeStatus.failed, created_at := "t0", confirmations := 0,
          events := [], confirmed_at := none, completed_at := none })]
        { event_id := "evt-c9", trade_id := "trade-c9", tx_hash := "0xc9",
          confirmation_count := 3, timestamp := "t2",
          event_type := "final_confirmation", data := [], retry_count := 0 })
      "trade-c9" = some tr' ∧
      tr'.status = TradeStatus.completed ∧ tr'.completed_at = some "t2" :=
  C9_failed_not_terminal 3 "t2" _ _ _ rfl rfl (by decide) rfl

/-! ## Monotonicity of trade state (claim C3) -/

/-- Position of a status along the forward chain
PENDING → CONFIRMED → COMPLETED. -/
def statusRank (s : String) : Nat :=
  if s = TradeStatus.confirmed then 1
  else if s = TradeStatus.completed then 2
  else 0

/-- A status lying on the PENDING → CONFIRMED → COMPLETED chain (the
statuses the processor itself ever assigns). -/
def chainStatus (s : String) : Prop :=
  s = TradeStatus.pending ∨ s = TradeStatus.confirmed ∨ s = TradeStatus.completed

theorem chain_pending : chainStatus TradeStatus.pending := Or.inl rfl

theorem chain_confirmed : chainStatus TradeStatus.confirmed := Or.inr (Or.inl rfl)

theorem chain_completed : chainStatus TradeStatus.completed := Or.inr (Or.inr rfl)

theorem statusRank_le_two (s : String) : statusRank s ≤ 2 := by
  unfold statusRank
  split_ifs <;> omega

/-- Confirmations of a trade as displayed from the store (0 when the
trade is absent, matching the freshly created record). -/
def tradeConf (trades : Trades) (tid : String) : Int :=
  ((alistGet trades tid).map Trade.confirmations).getD 0

/-- Chain position of the stored trade's status (0 when absent). -/
def tradeRank (trades : Trades) (tid : String) : Nat :=
  ((alistGet trades tid).map (fun tr => statusRank tr.status)).getD 0

/-- Every stored record for this trade id has a chain status. -/
def tradeChain (trades : Trades) (tid : String) : Prop :=
  ∀ tr, alistGet trades tid = some tr → chainStatus tr.status

theorem stepTrade_confirmations (threshold : Int) (now : String) (tr : Trade) (e : Event) :
    (stepTrade threshold now tr e).confirmations =
      max tr.confirmations e.confirmation_count := by
  unfold stepTrade
  split_ifs <;> simp [apply_ite Trade.confirmations]

theorem stepTrade_mono (threshold : Int) (now : String) (tr : Trade) (e : Event)
    (h : chainStatus tr.status) :
    tr.confirmations ≤ (stepTrade threshold now tr e).confirmations ∧
    statusRank tr.status ≤ statusRank (stepTrade threshold now tr e).status ∧
    chainStatus (stepTrade threshold now tr e).status := by
  refine ⟨?_, ?_, ?_⟩
  · rw [stepTrade_confirmations]
    exact le_max_left _ _
  · by_cases hc : e.confirmation_count ≥ threshold
    · by_cases hty : e.event_type = "final_confirmation"
      · by_cases hp : tr.status = TradeStatus.pending
        · simp only [stepTrade, hc, hty, hp, if_true, if_pos]
          exact statusRank_le_two _
        · simp only [stepTrade, hc, hty, hp, if_true, if_false, if_pos, if_neg]
          exact statusRank_le_two _
      · by_cases hp : tr.status = TradeStatus.pending
        · simp only [stepTrade, hc, hty, hp, if_true, if_pos, if_neg, if_false]
          decide
        · simp only [stepTrade, hc, hty, hp, if_true, if_pos, if_neg, if_false]
          exact le_refl _
    · simp only [stepTrade, hc, if_neg, if_false]
      exact le_refl _
  · by_cases hc : e.confirmation_count ≥ threshold
    · by_cases hty : e.event_type = "final_confirmation"
      · by_cases hp : tr.status = TradeStatus.pending
        · simp only [stepTrade, hc, hty, hp, if_true, if_pos]
          exact chain_completed
        · simp only [stepTrade, hc, hty, hp, if_true, if_false, if_pos, if_neg]
          exact chain_completed
      · by_cases hp : tr.status = TradeStatus.pending
        · simp only [stepTrade, hc, hty, hp, if_true, if_pos, if_neg, if_false]
          exact chain_confirmed
        · simp only [stepTrade, hc, hty, hp, if_true, if_pos, if_neg, if_false]
          exact h
    · simp only [stepTrade, hc, if_neg, if_false]
      exact h

/-- Applying one event never lowers the displayed confirmations or the
chain position of any trade, and keeps statuses on the chain. -/
theorem processEvent_mono (threshold : Int) (now : String) (trades : Trades)
    (e : Event) (tid : String) (h : tradeChain trades tid) :
    tradeConf trades tid ≤ tradeConf (processEvent threshold now trades e) tid ∧
    tradeRank trades tid ≤ tradeRank (processEvent threshold now trades e) tid ∧
    tradeChain (processEvent threshold now trades e) tid := by
  by_cases htid : e.trade_id = tid
  · subst htid
    cases hx : alistGet trades e.trade_id with
    | none =>
      have hm := stepTrade_mono threshold now (newTrade now) e chain_pending
      unfold tradeConf tradeRank tradeChain
      rw [processEvent_get_same, hx]
      refine ⟨?_, ?_, ?_⟩
      · simpa using hm.1
      · simp
      · intro tr htr
        simp only [Option.getD, Option.map, Option.some.injEq] at htr
        rw [← htr]
        exact hm.2.2
    | some tr =>
      have hm := stepTrade_mono threshold now tr e (h tr hx)
      unfold tradeConf tradeRank tradeChain
      rw [processEvent_get_same, hx]
      refine ⟨?_, ?_, ?_⟩
      · simpa using hm.1
      · simpa using hm.2.1
      · intro tr' htr'
        simp only [Option.getD, Option.map, Option.some.injEq] at htr'
        rw [← htr']
        exact hm.2.2
  · have hg := processEvent_get_other threshold now trades e tid htid
    unfold tradeConf tradeRank tradeChain
    rw [hg]
    exact ⟨le_refl _, le_refl _, fun tr htr => h tr htr⟩

/-- One application updates the displayed confirmations of the event's
trade to the max of the previous value and the event's count. -/
theorem tradeConf_processEvent (threshold : Int) (now : String) (trades : Trades)
    (e : Event) :
    tradeConf (processEvent threshold now trades e) e.trade_id =
      max (tradeConf trades e.trade_id) e.confirmation_count := by
  unfold tradeConf
  rw [processEvent_get_same]
  cases hx : alistGet trades e.trade_id with
  | none => simp [stepTrade_confirmations, newTrade]
  | some tr => simp [stepTrade_confirmations]

/-- C3: across any sequence of applied events — regardless of arrival
order — a trade's confirmations are monotonically non-decreasing and
its status only moves forward along PENDING → CONFIRMED → COMPLETED
(never regressing once CONFIRMED or COMPLETED), provided its stored
status lies on that chain; moreover each single application updates the
confirmations to the max of the previous value and the applied event's
confirmation_count. -/
theorem C3_trade_monotonicity (threshold : Int) (steps : List (Event × String))
    (trades : Trades) (tid : String) (h : tradeChain trades tid) :
    (tradeConf trades tid ≤ tradeConf (processEvents threshold steps trades) tid ∧
      tradeRank trades tid ≤ tradeRank (processEvents threshold steps trades) tid ∧
      tradeChain (processEvents threshold steps trades) tid) ∧
    ∀ (e : Event) (now : String),
      tradeConf (processEvent threshold now trades e) e.trade_id =
        max (tradeConf trades e.trade_id) e.confirmation_count := by
  refine ⟨?_, fun e now => tradeConf_processEvent threshold now trades e⟩
  induction steps generalizing trades with
  | nil => exact ⟨le_refl _, le_refl _, h⟩
  | cons s rest ih =>
    obtain ⟨h1, h2, h3⟩ := processEvent_mono threshold s.2 trades s.1 tid h
    obtain ⟨g1, g2, g3⟩ := ih (processEvent threshold s.2 trades s.1) h3
    exact ⟨le_trans h1 g1, le_trans h2 g2, g3⟩

/-- Witness for C3_trade_monotonicity: a CONFIRMED trade with 5
confirmations, after an out-of-order sequence reporting 7 then 2
confirmations, still shows non-decreased confirmations and
non-regressed status. -/
theorem C3_witness :
    tradeConf [("trade-c1", c1Trade)] "trade-c1" ≤
      tradeConf (processEvents 3
        [({ event_id := "evt-m1", trade_id := "trade-c1", tx_hash := "0xa",
            confirmation_count := 7, timestamp := "t1", event_type := "confirmation",
            data := [], retry_count := 0 }, "t1"),
         ({ event_id := "evt-m2", trade_id := "trade-c1", tx_hash := "0xa",
            confirmation_count := 2, timestamp := "t2", event_type := "confirmation",
            data := [], retry_count := 0 }, "t2")]
        [("trade-c1", c1Trade)]) "trade-c1" ∧
    tradeRank [("trade-c1", c1Trade)] "trade-c1" ≤
      tradeRank (processEvents 3
        [({ event_id := "evt-m1", trade_id := "trade-c1", tx_hash := "0xa",
            confirmation_count := 7, timestamp := "t1", event_type := "confirmation",
            data := [], retry_count := 0 }, "t1"),
         ({ event_id := "evt-m2", trade_id := "trade-c1", tx_hash := "0xa",
            confirmation_count := 2, timestamp := "t2", event_type := "confirmation",
            data := [], retry_count := 0 }, "t2")]
        [("trade-c1", c1Trade)]) "trade-c1" := by
  have hchain : tradeChain [("trade-c1", c1Trade)] "trade-c1" := by
    intro tr htr
    simp [alistGet] at htr
    rw [← htr]
    exact chain_confirmed
  obtain ⟨⟨h1, h2, _⟩, _⟩ :=
    C3_trade_monotonicity 3
      [({ event_id := "evt-m1", trade_id := "trade-c1", tx_hash := "0xa",
          confirmation_count := 7, timestamp := "t1", event_type := "confirmation",
          data := [], retry_count := 0 }, "t1"),
       ({ event_id := "evt-m2", trade_id := "trade-c1", tx_hash := "0xa",
          confirmation_count := 2, timestamp := "t2", event_type := "confirmation",
          data := [], retry_count := 0 }, "t2")]
      [("trade-c1", c1Trade)] "trade-c1" hchain
  exact ⟨h1, h2⟩

/-! ## Retry, dead-letter queue and replay (event_processor.py) -/

/-- A Python exception as seen by the consumer loop's handlers: either
tenacity's RetryError wrapper or an ordinary exception carrying its
message. -/
inductive PyExc
| retryError (msg : String)
| exc (msg : String)
deriving DecidableEq

/-- stop_after_attempt(5) on _process_event_with_retry. -/
def tenacityStopAttempts : Nat := 5

/-- _process_event_with_retry under tenacity retry(stop=stop_after_attempt(5),
reraise=True).  The oracle gives, for each attempt index (0-based), none
when _process_event succeeds and some message when it raises.  On the
first success the attempt index is returned; when every attempt raises,
reraise=True re-raises the last attempt's ORIGINAL exception — not a
RetryError. -/
def retryRun (attempts : Nat → Option String) : Nat → Nat → Except PyExc Nat
| 0, _ => .error (.exc "")
| 1, i =>
  match attempts i with
  | none => .ok i
  | some m => .error (.exc m)
| Nat.succ (Nat.succ rem), i =>
  match attempts i with
  | none => .ok i
  | some _ => retryRun attempts (Nat.succ rem) (i + 1)

def processEventWithRetry (attempts : Nat → Option String) : Except PyExc Nat :=
  retryRun attempts tenacityStopAttempts 0

/-- The DeadLetterEvent dataclass; original_event holds the full
serialized Event (asdict). -/
structure DeadLetterEvent where
  event_id : String
  trade_id : String
  error_message : String
  timestamp : String
  retry_count : Nat
  original_event : Event
deriving DecidableEq

/-- Processor-owned state: the trades document, the dead-letter store
and the in-memory processed_events map. -/
structure ProcState where
  trades : Trades
  dlq : List DeadLetterEvent
  processed : List (String × Event)

/-- The DeadLetterEvent record built by _handle_failed_event. -/
def mkDeadLetter (now : String) (e : Event) (errMsg : String) (retryCount : Nat) :
    DeadLetterEvent :=
  { event_id := e.event_id
    trade_id := e.trade_id
    error_message := errMsg
    timestamp := now
    retry_count := retryCount
    original_event := e }

/-- _handle_failed_event: append one dead-letter entry recording the
given retry count, error message and the original event. -/
def handleFailedEvent (now : String) (st : ProcState) (e : Event) (errMsg : String)
    (retryCount : Nat) : ProcState :=
  { st with dlq := st.dlq ++ [mkDeadLetter now e errMsg retryCount] }

/-- One iteration of process_queue on a dequeued event: run the
retry-wrapped processing; on success apply the trade update and record
the event in processed_events; on a RetryError escape record the entry
with max_retries attempts; on any other exception record the entry with
retry count 0 (lines 317-334). -/
def processQueueStep (threshold : Int) (maxRetries : Nat) (now : String)
    (attempts : Nat → Option String) (st : ProcState) (e : Event) : ProcState :=
  match processEventWithRetry attempts with
  | .ok _ =>
    { st with
      trades := processEvent threshold now st.trades e
      processed := alistSet st.processed e.event_id e }
  | .error (.retryError m) => handleFailedEvent now st e m maxRetries
  | .error (.exc m) => handleFailedEvent now st e m 0

/-- Reconstruction of the original event on replay: identical except
retry_count is incremented (retry_dlq_event lines 437-447). -/
def reviveEvent (oe : Event) : Event := { oe with retry_count := oe.retry_count + 1 }

/-- Find and remove the first dead-letter entry with the given
event_id, as the pop-inside-loop of retry_dlq_event does. -/
def removeFirstDlq : List DeadLetterEvent → String → Option (DeadLetterEvent × List DeadLetterEvent)
| [], _ => none
| d :: rest, eid =>
  if d.event_id = eid then some (d, rest)
  else
    match removeFirstDlq rest eid with
    | none => none
    | some (x, ys) => some (x, d :: ys)

/-- Observable outcome of retry_dlq_event: the returned boolean, the
resulting dead-letter store, the events put on the queue, and whether
the dead-letter file was rewritten. -/
structure DLQOpResult where
  found : Bool
  dlq : List DeadLetterEvent
  enqueued : List Event
  fileWritten : Bool
deriving DecidableEq

/-- retry_dlq_event: pop the first entry matching event_id; if none is
found return False without saving or enqueueing; otherwise save the
shrunk store and re-enqueue the reconstructed event. -/
def retryDlqEvent (dlq : List DeadLetterEvent) (eid : String) : DLQOpResult :=
  match removeFirstDlq dlq eid with
  | none => { found := false, dlq := dlq, enqueued := [], fileWritten := false }
  | some (d, rest) =>
    { found := true, dlq := rest, enqueued := [reviveEvent d.original_event],
      fileWritten := true }

/-- The event used to exercise the dead-letter path. -/
def c5Event : Event :=
  { event_id := "evt-dlq", trade_id := "trade-dlq", tx_hash := "0xd",
    confirmation_count := 1, timestamp := "t0", event_type := "confirmation",
    data := [], retry_count := 0 }

/-- The single dead-letter entry produced for c5Event: error message
"boom", original event verbatim, recorded retry_count 0. -/
def c5Entry : DeadLetterEvent :=
  { event_id := "evt-dlq"
    trade_id := "trade-dlq"
    error_message := "boom"
    timestamp := "t1"
    retry_count := 0
    original_event := c5Event }

/-- The event re-enqueued by replaying c5Entry: c5Event with
retry_count incremented from 0 to 1. -/
def c5Revived : Event :=
  { event_id := "evt-dlq"
    trade_id := "trade-dlq"
    tx_hash := "0xd"
    confirmation_count := 1
    timestamp := "t0"
    event_type := "confirmation"
    data := []
    retry_count := 1 }

/-- C5: evaluation of the code at the failing input.  An event whose
processing raises "boom" on every one of the 5 attempts produces
exactly one dead-letter entry containing the original event verbatim
and the error message, and replaying it removes the entry and
re-enqueues the event with retry_count incremented by 1 — but the
recorded retry_count of the entry is 0, not the attempt count 5:
tenacity's reraise=True makes the exhausted retry raise the original
exception, so process_queue's except-RetryError branch (which would
record max_retries) is unreachable and the generic except-Exception
branch records 0. -/
theorem C5_dead_letter_roundtrip_evaluation :
    (processQueueStep 3 5 "t1" (fun _ => some "boom")
        { trades := [], dlq := [], processed := [] } c5Event).dlq = [c5Entry] ∧
    c5Entry.original_event = c5Event ∧ c5Entry.error_message = "boom" ∧
    c5Entry.retry_count = 0 ∧ tenacityStopAttempts = 5 ∧
    c5Entry.retry_count ≠ tenacityStopAttempts ∧
    retryDlqEvent [c5Entry] "evt-dlq" =
      { found := true, dlq := [], enqueued := [c5Revived], fileWritten := true } ∧
    c5Revived.retry_count = c5Event.retry_count + 1 := by
  refine ⟨?_, rfl, rfl, rfl, rfl, by decide, ?_, rfl⟩
  · rfl
  · rfl

/-- C10: replaying an event_id that is absent from the dead-letter
store returns False and leaves everything unchanged: the store is
untouched, the file is not rewritten, and nothing is enqueued. -/
theorem C10_retry_missing_id_noop (dlq : List DeadLetterEvent) (eid : String)
    (h : ∀ d ∈ dlq, d.event_id ≠ eid) :
    retryDlqEvent dlq eid =
      { found := false, dlq := dlq, enqueued := [], fileWritten := false } := by
  have hrem : removeFirstDlq dlq eid = none := by
    induction dlq with
    | nil => rfl
    | cons d rest ih =>
      have hd := h d (List.mem_cons_self d rest)
      unfold removeFirstDlq
      rw [if_neg hd, ih (fun x hx => h x (List.mem_cons_of_mem d hx))]
  unfold retryDlqEvent
  rw [hrem]

/-- Witness for C10_retry_missing_id_noop: a store holding one entry for
evt-dlq is unchanged by a replay request for a missing id. -/
theorem C10_witness :
    retryDlqEvent [c5Entry] "evt-missing" =
      { found := false, dlq := [c5Entry], enqueued := [], fileWritten := false } := by
  exact C10_retry_missing_id_noop _ _ (by decide)

/-! ## Webhook receiver (receiver.py) -/

/-- The WebhookEvent dataclass.  The network-specific `data` dict maps
the keys the parser extracts to the (possibly absent) payload values. -/
structure WebhookEvent where
  event_id : String
  network : String
  tx_hash : String
  confirmation_count : Int
  timestamp : String
  event_type : String
  data : List (String × Option String)
  received_at : String
deriving DecidableEq

/-- A successfully json.loads-ed webhook body: the envelope fields the
receiver reads (each absent when the key is missing), plus the
remaining network-specific fields as an opaque dict. -/
structure Payload where
  event_id : Option String
  network : Option String
  tx_hash : Option String
  confirmations : Option Int
  timestamp : Option String
  ptype : Option String
  extras : List (String × String)
deriving DecidableEq

def pget (p : Payload) (k : String) : Option String := alistGet p.extras k

/-- _parse_ethereum_event (its try/except cannot fire on a dict input,
so the embedding is total). -/
def parseEthereumEvent (now : String) (p : Payload) : WebhookEvent :=
  { event_id := p.event_id.getD ""
    network := "ETH"
    tx_hash := p.tx_hash.getD ""
    confirmation_count := p.confirmations.getD 0
    timestamp := p.timestamp.getD ""
    event_type := p.ptype.getD "transaction"
    data := [("from", pget p "from"), ("to", pget p "to"), ("value", pget p "value"),
             ("gas_price", pget p "gas_price"), ("gas_used", pget p "gas_used")]
    received_at := now }

/-- _parse_bitcoin_event. -/
def parseBitcoinEvent (now : String) (p : Payload) : WebhookEvent :=
  { event_id := p.event_id.getD ""
    network := "BTC"
    tx_hash := p.tx_hash.getD ""
    confirmation_count := p.confirmations.getD 0
    timestamp := p.timestamp.getD ""
    event_type := p.ptype.getD "transaction"
    data := [("inputs", pget p "inputs"), ("outputs", pget p "outputs"),
             ("fee", pget p "fee"), ("size", pget p "size")]
    received_at := now }

/-- _parse_solana_event. -/
def parseSolanaEvent (now : String) (p : Payload) : WebhookEvent :=
  { event_id := p.event_id.getD ""
    network := "SOL"
    tx_hash := p.tx_hash.getD ""
    confirmation_count := p.confirmations.getD 0
    timestamp := p.timestamp.getD ""
    event_type := p.ptype.getD "transaction"
    data := [("accounts", pget p "accounts"), ("instructions", pget p "instructions"),
             ("fee", pget p "fee"), ("slot", pget p "slot")]
    received_at := now }

/-- _parse_litecoin_event. -/
def parseLitecoinEvent (now : String) (p : Payload) : WebhookEvent :=
  { event_id := p.event_id.getD ""
    network := "LTC"
    tx_hash := p.tx_hash.getD ""
    confirmation_count := p.confirmations.getD 0
    timestamp := p.timestamp.getD ""
    event_type := p.ptype.getD "transaction"
    data := [("inputs", pget p "inputs"), ("outputs", pget p "outputs"),
             ("fee", pget p "fee"), ("size", pget p "size")]
    received_at := now }

/-- Python str.upper, character-wise (structurally recursive so that
concrete dispatches evaluate). -/
def pyUpper (s : String) : String := String.mk (s.data.map Char.toUpper)

/-- _parse_event: dispatch on the upper-cased declared network; unknown
network yields none. -/
def parseEvent (now : String) (p : Payload) : Option WebhookEvent :=
  let network := pyUpper (p.network.getD "")
  if network = "ETH" then some (parseEthereumEvent now p)
  else if network = "BTC" then some (parseBitcoinEvent now p)
  else if network = "SOL" then some (parseSolanaEvent now p)
  else if network = "LTC" then some (parseLitecoinEvent now p)
  else none

/-- Contents of webhook_events.json: the persisted event store and the
idempotency ledger of accepted event_ids. -/
structure EventsData where
  events : List WebhookEvent
  processed_ids : List String
deriving DecidableEq

/-- The receiver's file together with a schedule of outcomes for the
successive write_text calls (true = the write succeeds; false = it
raises IOError, which _save_events logs and swallows, leaving the file
unchanged).  An exhausted schedule means writes succeed. -/
structure ReceiverState where
  file : EventsData
  writes : List Bool
deriving DecidableEq

/-- _load_events reads the current file. -/
def loadEvents (st : ReceiverState) : EventsData := st.file

/-- _save_events: write the document; an IOError is caught and logged,
leaving the previous contents in place. -/
def saveEvents (st : ReceiverState) (d : EventsData) : ReceiverState :=
  match st.writes with
  | [] => { file := d, writes := [] }
  | b :: rest => { file := if b then d else st.file, writes := rest }

/-- _check_idempotency: true when the event_id is new. -/
def checkIdempotency (st : ReceiverState) (eid : String) : Bool :=
  !(decide (eid ∈ (loadEvents st).processed_ids))

/-- _mark_processed: append the id to the ledger (re-loading the file)
unless already present, then save. -/
def markProcessed (st : ReceiverState) (eid : String) : ReceiverState :=
  let d := loadEvents st
  if eid ∈ d.processed_ids then st
  else saveEvents st { d with processed_ids := d.processed_ids ++ [eid] }

/-- The HTTP outcomes of handle_webhook: 401, the three 400s, the
duplicate 200, and the received 200 with its body fields. -/
inductive WebhookResponse
| unauthorized
| invalidJson
| missingEventId
| duplicate (event_id : String)
| parseFailed
| received (event_id : String) (network : String) (tx_hash : String)
deriving DecidableEq

/-- _verify_signature: accept unconditionally when no secret is
configured (logged), otherwise the constant-time HMAC comparison
outcome. -/
def verifySignature (secretConfigured : Bool) (hmacMatches : Bool) : Bool :=
  if secretConfigured then hmacMatches else true

/-- handle_webhook on one request: signature check, JSON parse (the
parse result is passed as an Option), event_id presence, idempotency
check, network parse, then persist the event and mark the ledger as two
separate writes. -/
def handleWebhook (secretConfigured hmacMatches : Bool) (parsedJson : Option Payload)
    (now : String) (st : ReceiverState) : WebhookResponse × ReceiverState :=
  if verifySignature secretConfigured hmacMatches = false then (.unauthorized, st)
  else
    match parsedJson with
    | none => (.invalidJson, st)
    | some p =>
      match p.event_id with
      | none => (.missingEventId, st)
      | some eid =>
        if eid = "" then (.missingEventId, st)
        else if checkIdempotency st eid = false then (.duplicate eid, st)
        else
          match parseEvent now p with
          | none => (.parseFailed, st)
          | some ev =>
            let d := loadEvents st
            let st1 := saveEvents st { d with events := d.events ++ [ev] }
            let st2 := markProcessed st1 eid
            (.received eid ev.network ev.tx_hash, st2)

theorem saveEvents_all_true (st : ReceiverState) (d : EventsData)
    (hw : ∀ b ∈ st.writes, b = true) :
    saveEvents st d = { file := d, writes := st.writes.tail } := by
  obtain ⟨f, ws⟩ := st
  cases ws with
  | nil => rfl
  | cons b rest =>
    have hb : b = true := hw b (List.mem_cons_self b rest)
    simp [saveEvents, hb]

theorem writes_tail_all_true (st : ReceiverState) (hw : ∀ b ∈ st.writes, b = true) :
    ∀ b ∈ st.writes.tail, b = true :=
  fun b hb => hw b (List.mem_of_mem_tail hb)

/-- The state after an accepted request when every file write succeeds:
the event appended to the store and the id appended to the ledger, two
write slots consumed. -/
def acceptedState (st : ReceiverState) (ev : WebhookEvent) (eid : String) : ReceiverState :=
  { file := { events := st.file.events ++ [ev]
              processed_ids := st.file.processed_ids ++ [eid] }
    writes := st.writes.tail.tail }

theorem handleWebhook_accept (sc hm : Bool) (p : Payload) (now : String)
    (st : ReceiverState) (hsig : verifySignature sc hm = true) (eid : String)
    (hpe : p.event_id = some eid) (heid : ¬ eid = "")
    (hnew : eid ∉ st.file.processed_ids) (ev : WebhookEvent)
    (hparse : parseEvent now p = some ev) (hw : ∀ b ∈ st.writes, b = true) :
    handleWebhook sc hm (some p) now st =
      (.received eid ev.network ev.tx_hash, acceptedState st ev eid) := by
  obtain ⟨f, ws⟩ := st
  simp only at hnew hw
  cases ws with
  | nil =>
    simp [handleWebhook, checkIdempotency, loadEvents, saveEvents, markProcessed,
      hsig, hpe, heid, hparse, hnew, acceptedState]
  | cons b rest =>
    have hb : b = true := hw b (List.mem_cons_self b rest)
    subst hb
    cases rest with
    | nil =>
      simp [handleWebhook, checkIdempotency, loadEvents, saveEvents, markProcessed,
        hsig, hpe, heid, hparse, hnew, acceptedState]
    | cons b2 rest2 =>
      have hb2 : b2 = true := hw b2 (List.mem_cons_of_mem _ (List.mem_cons_self b2 rest2))
      subst hb2
      simp [handleWebhook, checkIdempotency, loadEvents, saveEvents, markProcessed,
        hsig, hpe, heid, hparse, hnew, acceptedState]

theorem handleWebhook_duplicate (sc hm : Bool) (p : Payload) (now : String)
    (st : ReceiverState) (hsig : verifySignature sc hm = true) (eid : String)
    (hpe : p.event_id = some eid) (heid : ¬ eid = "")
    (hdup : eid ∈ st.file.processed_ids) :
    handleWebhook sc hm (some p) now st = (.duplicate eid, st) := by
  simp [handleWebhook, checkIdempotency, loadEvents, hsig, hpe, heid, hdup]

theorem parseEvent_event_id (now : String) (p : Payload) (ev : WebhookEvent)
    (h : parseEvent now p = some ev) : ev.event_id = p.event_id.getD "" := by
  unfold parseEvent at h
  dsimp only at h
  split_ifs at h <;> try exact Option.noConfusion h
  all_goals
    injection h with h2
    rw [← h2]
    rfl

/-- A well-formed ETH payload used in receiver scenarios. -/
def c2Payload : Payload :=
  { event_id := some "evt-c2"
    network := some "ETH"
    tx_hash := some "0xabc"
    confirmations := some 1
    timestamp := some "t0"
    ptype := some "confirmation"
    extras := [] }

/-- C2 counterexample: with an empty store and a first file write that
fails (an IOError, which _save_events logs and swallows), a valid
request is still acknowledged with "received" while the persisted event
store does not contain the event (only the ledger does).  This is an
outcome the claim says cannot exist, so persist-plus-mark is not a
single logically-atomic step. -/
theorem C2_counterexample :
    (handleWebhook true true (some c2Payload) "t1"
      { file := { events := [], processed_ids := [] }, writes := [false] }).1 =
      .received "evt-c2" "ETH" "0xabc" ∧
    (handleWebhook true true (some c2Payload) "t1"
      { file := { events := [], processed_ids := [] }, writes := [false] }).2.file.events
      = [] ∧
    (handleWebhook true true (some c2Payload) "t1"
      { file := { events := [], processed_ids := [] }, writes := [false] }).2.file.processed_ids
      = ["evt-c2"] := by
  refine ⟨?_, ?_, ?_⟩ <;> decide

/-- C2 (amended): the persist and the ledger mark are two separate
read-modify-write file operations whose IOErrors are logged and
swallowed, so the step is not atomic in general; but in every execution
in which the scheduled file writes succeed, a "received"
acknowledgement implies that the persisted store contains the
normalized event (with the acknowledged event_id) and the idempotency
ledger contains the event_id. -/
theorem C2_amended_acknowledge_implies_persisted (sc hm : Bool) (p : Payload)
    (now : String) (st : ReceiverState) (hw : ∀ b ∈ st.writes, b = true)
    (eid nw tx : String)
    (hres : (handleWebhook sc hm (some p) now st).1 = .received eid nw tx) :
    (∃ ev, ev ∈ (handleWebhook sc hm (some p) now st).2.file.events ∧
      ev.event_id = eid) ∧
    eid ∈ (handleWebhook sc hm (some p) now st).2.file.processed_ids := by
  by_cases hsig : verifySignature sc hm = true
  · cases hpe : p.event_id with
    | none =>
      have heval : handleWebhook sc hm (some p) now st = (.missingEventId, st) := by
        simp [handleWebhook, hsig, hpe]
      rw [heval] at hres
      simp at hres
    | some eid0 =>
      by_cases heid : eid0 = ""
      · have heval : handleWebhook sc hm (some p) now st = (.missingEventId, st) := by
          simp [handleWebhook, hsig, hpe, heid]
        rw [heval] at hres
        simp at hres
      · by_cases hdup : eid0 ∈ st.file.processed_ids
        · have heval := handleWebhook_duplicate sc hm p now st hsig eid0 hpe heid hdup
          rw [heval] at hres
          simp at hres
        · cases hparse : parseEvent now p with
          | none =>
            have heval : handleWebhook sc hm (some p) now st = (.parseFailed, st) := by
              simp [handleWebhook, checkIdempotency, loadEvents, hsig, hpe, heid,
                hdup, hparse]
            rw [heval] at hres
            simp at hres
          | some ev =>
            have heval :=
              handleWebhook_accept sc hm p now st hsig eid0 hpe heid hdup ev hparse hw
            rw [heval] at hres ⊢
            dsimp only at hres ⊢
            injection hres with h1 h2 h3
            subst h1
            constructor
            · refine ⟨ev, ?_, ?_⟩
              · simp [acceptedState]
              · rw [parseEvent_event_id now p ev hparse, hpe]
                rfl
            · simp [acceptedState]
  · have hv : verifySignature sc hm = false := by
      cases hb : verifySignature sc hm
      · rfl
      · exact absurd hb hsig
    have heval : handleWebhook sc hm (some p) now st = (.unauthorized, st) := by
      simp [handleWebhook, hv]
    rw [heval] at hres
    simp at hres

/-- Witness for C2_amended_acknowledge_implies_persisted: with all
writes succeeding, the accepted c2Payload is in the store and its id in
the ledger. -/
theorem C2_amended_witness :
    (∃ ev, ev ∈ (handleWebhook true true (some c2Payload) "t1"
        { file := { events := [], processed_ids := [] }, writes := [] }).2.file.events ∧
      ev.event_id = "evt-c2") ∧
    "evt-c2" ∈ (handleWebhook true true (some c2Payload) "t1"
        { file := { events := [], processed_ids := [] }, writes := [] }).2.file.processed_ids := by
  exact C2_amended_acknowledge_implies_persisted true true c2Payload "t1"
    { file := { events := [], processed_ids := [] }, writes := [] }
    (by simp) "evt-c2" "ETH" "0xabc" (by decide)

/-- C4: submitting the same event_id twice (valid signature and
well-formed body both times, file writes succeeding) yields one
"received" and one distinct "duplicate" outcome (an HTTP 200, not an
error); the duplicate delivery changes no state (no persist, no ledger
change — the handler returns before parsing), and exactly one event
with that event_id is persisted. -/
theorem C4_duplicate_delivery (sc hm1 hm2 : Bool) (p p2 : Payload)
    (now now2 : String) (st : ReceiverState) (eid : String)
    (hsig1 : verifySignature sc hm1 = true) (hsig2 : verifySignature sc hm2 = true)
    (hpe : p.event_id = some eid) (hpe2 : p2.event_id = some eid) (heid : ¬ eid = "")
    (hnew : eid ∉ st.file.processed_ids) (ev : WebhookEvent)
    (hparse : parseEvent now p = some ev) (hw : ∀ b ∈ st.writes, b = true)
    (hold : ∀ ev2, ev2 ∈ st.file.events → ev2.event_id ≠ eid) :
    (handleWebhook sc hm1 (some p) now st).1 = .received eid ev.network ev.tx_hash ∧
    (handleWebhook sc hm1 (some p) now st).2.file.events = st.file.events ++ [ev] ∧
    (handleWebhook sc hm1 (some p) now st).2.file.processed_ids =
      st.file.processed_ids ++ [eid] ∧
    (handleWebhook sc hm2 (some p2) now2 (handleWebhook sc hm1 (some p) now st).2).1 =
      .duplicate eid ∧
    (handleWebhook sc hm2 (some p2) now2 (handleWebhook sc hm1 (some p) now st).2).2 =
      (handleWebhook sc hm1 (some p) now st).2 ∧
    ((handleWebhook sc hm1 (some p) now st).2.file.events.filter
        (fun ev2 => ev2.event_id == eid)).length = 1 := by
  have h1 := handleWebhook_accept sc hm1 p now st hsig1 eid hpe heid hnew ev hparse hw
  have hevid : ev.event_id = eid := by
    rw [parseEvent_event_id now p ev hparse, hpe]
    rfl
  have hdup : eid ∈ (acceptedState st ev eid).file.processed_ids := by
    simp [acceptedState]
  have h2 := handleWebhook_duplicate sc hm2 p2 now2 (acceptedState st ev eid)
    hsig2 eid hpe2 heid hdup
  rw [h1]
  dsimp only
  rw [h2]
  dsimp only
  refine ⟨rfl, rfl, rfl, rfl, rfl, ?_⟩
  show ((st.file.events ++ [ev]).filter (fun ev2 => ev2.event_id == eid)).length = 1
  rw [List.filter_append]
  have hfil : st.file.events.filter (fun ev2 => ev2.event_id == eid) = [] := by
    rw [List.filter_eq_nil_iff]
    intro a ha
    simp [hold a ha]
  rw [hfil]
  simp [hevid]

/-- Witness for C4_duplicate_delivery: delivering c2Payload twice to an
empty receiver yields received then duplicate with exactly one
persisted event. -/
theorem C4_witness :
    (handleWebhook true true (some c2Payload) "t1"
      { file := { events := [], processed_ids := [] }, writes := [] }).1 =
      .received "evt-c2" "ETH" "0xabc" ∧
    (handleWebhook true true (some c2Payload) "t2"
      (handleWebhook true true (some c2Payload) "t1"
        { file := { events := [], processed_ids := [] }, writes := [] }).2).1 =
      .duplicate "evt-c2" ∧
    ((handleWebhook true true (some c2Payload) "t1"
      { file := { events := [], processed_ids := [] }, writes := [] }).2.file.events.filter
        (fun ev2 => ev2.event_id == "evt-c2")).length = 1 := by
  obtain ⟨ha, _, _, hd, _, hf⟩ :=
    C4_duplicate_delivery true true true c2Payload c2Payload "t1" "t2"
      { file := { events := [], processed_ids := [] }, writes := [] } "evt-c2"
      rfl rfl rfl rfl (by decide) (by simp) (parseEthereumEvent "t1" c2Payload)
      (by decide) (by simp) (by simp)
  exact ⟨ha, hd, hf⟩

/-! ## RPC reliability client (rpc_client.py) -/

/-- The four supported networks (NetworkType). -/
inductive NetworkType
| eth
| btc
| sol
| ltc
deriving DecidableEq

/-- Client configuration from __init__: per-network endpoint URLs, the
general request timeout, retry bound and backoff multiplier. -/
structure RPCConfig where
  eth_rpc_url : Option String
  btc_rpc_url : Option String
  sol_rpc_url : Option String
  ltc_rpc_url : Option String
  timeout : ℚ
  max_retries : Nat
  backoff_factor : ℚ

/-- _get_rpc_url. -/
def getRpcUrl (cfg : RPCConfig) : NetworkType → Option String
| .eth => cfg.eth_rpc_url
| .btc => cfg.btc_rpc_url
| .sol => cfg.sol_rpc_url
| .ltc => cfg.ltc_rpc_url

/-- Outcome of one HTTP attempt inside _make_request's try block: an
HTTP response whose JSON either carries a non-null error object (its
message) or a result payload, or a raised timeout, or a raised
aiohttp client (transport) error. -/
inductive AttemptOutcome
| httpResponse (errorField : Option String) (result : List (String × String))
| timeoutErr
| connectionErr (msg : String)
deriving DecidableEq

/-- The typed faults of the client: RPCConnectionError, RPCTimeoutError
and the protocol-level RPCError raised on a JSON-RPC error object. -/
inductive RPCFault
| connectionFault (msg : String)
| timeoutFault (msg : String)
| protocolFault (msg : String)
deriving DecidableEq

/-- Classification done inside the try/except arms of _make_request:
an error field raises RPCError, asyncio.TimeoutError becomes
RPCTimeoutError, aiohttp.ClientError becomes RPCConnectionError. -/
def attemptResult : AttemptOutcome → Except RPCFault (List (String × String))
| .httpResponse (some m) _ => .error (.protocolFault ("RPC error: " ++ m))
| .httpResponse none d => .ok d
| .timeoutErr => .error (.timeoutFault "RPC request timed out")
| .connectionErr m => .error (.connectionFault ("Connection error: " ++ m))

/-- Observable trace of one _make_request call: the returned data or
raised fault, the sleeps performed between attempts, and how many
attempts were made. -/
structure RequestTrace where
  result : Except RPCFault (List (String × String))
  sleeps : List ℚ
  attemptsMade : Nat

/-- The retry loop of _make_request: `for attempt in range(max_retries)`,
sleeping backoff_factor ** attempt after each failed attempt except the
last, keeping the last classified failure; after the loop the last
error (or a generic connection fault) is raised. -/
def makeRequestGo (attempts : Nat → AttemptOutcome) (backoff : ℚ) (maxRetries : Nat) :
    Nat → Nat → Option RPCFault → List ℚ → RequestTrace
| 0, i, lastError, sleeps =>
  { result := .error (lastError.getD (.connectionFault "Failed to connect to RPC endpoint"))
    sleeps := sleeps
    attemptsMade := i }
| remaining + 1, i, _lastError, sleeps =>
  match attemptResult (attempts i) with
  | .ok d => { result := .ok d, sleeps := sleeps, attemptsMade := i + 1 }
  | .error f =>
    makeRequestGo attempts backoff maxRetries remaining (i + 1) (some f)
      (if i < maxRetries - 1 then sleeps ++ [backoff ^ i] else sleeps)

/-- _make_request: a missing URL raises RPCConnectionError immediately
(no attempt, no sleep); otherwise the bounded retry loop runs. -/
def makeRequest (url : Option String) (maxRetries : Nat) (backoff : ℚ)
    (attempts : Nat → AttemptOutcome) : RequestTrace :=
  match url with
  | none =>
    { result := .error (.connectionFault "RPC URL not configured")
      sleeps := []
      attemptsMade := 0 }
  | some _ => makeRequestGo attempts backoff maxRetries maxRetries 0 none []

theorem makeRequestGo_all_fail (attempts : Nat → AttemptOutcome) (backoff : ℚ)
    (n : Nat) (f : RPCFault)
    (hf : ∀ j, j < n → attemptResult (attempts j) = .error f) :
    ∀ r i lastError sleeps, i + r = n → 1 ≤ r →
      makeRequestGo attempts backoff n r i lastError sleeps =
        { result := .error f
          attemptsMade := n
          sleeps := sleeps ++ (List.range (n - 1 - i)).map (fun k => backoff ^ (i + k)) } := by
  intro r
  induction r with
  | zero => intro i lastError sleeps hin hr; exact absurd hr (by omega)
  | succ r ih =>
    intro i lastError sleeps hin _
    have hi : i < n := by omega
    have hfi := hf i hi
    unfold makeRequestGo
    rw [hfi]
    cases r with
    | zero =>
      have hnot : ¬ i < n - 1 := by omega
      rw [if_neg hnot]
      unfold makeRequestGo
      have hrange : n - 1 - i = 0 := by omega
      rw [hrange]
      have hn1 : i + 1 = n := by omega
      simp [hn1]
    | succ r2 =>
      have hlt : i < n - 1 := by omega
      rw [if_pos hlt]
      dsimp only
      rw [ih (i + 1) (some f) (sleeps ++ [backoff ^ i]) (by omega) (by omega)]
      have hsplit : (List.range (n - 1 - i)).map (fun k => backoff ^ (i + k)) =
          backoff ^ i :: (List.range (n - 1 - (i + 1))).map (fun k => backoff ^ (i + 1 + k)) := by
        have hn2 : n - 1 - i = (n - 1 - (i + 1)) + 1 := by omega
        rw [hn2, List.range_succ_eq_map, List.map_cons, List.map_map]
        have hfun : ((fun k => backoff ^ (i + k)) ∘ Nat.succ) =
            (fun k => backoff ^ (i + 1 + k)) := by
          funext k
          simp only [Function.comp]
          congr 1
          omega
        rw [hfun]
        simp
      rw [hsplit]
      simp

/-- C6: an RPC call (with a configured URL) that fails on every attempt
is tried exactly max_retries times, sleeps backoff_factor ^ attempt
seconds between attempts with attempt zero-indexed — max_retries − 1
waits in total, [b^0, b^1, …] — and then propagates the classified
failure as a typed fault (connection, timeout or protocol fault), never
silently swallowed. -/
theorem C6_retry_backoff_typed_fault (u : String) (n : Nat) (hn : 1 ≤ n)
    (backoff : ℚ) (attempts : Nat → AttemptOutcome) (f : RPCFault)
    (hfail : ∀ j, j < n → attemptResult (attempts j) = .error f) :
    (makeRequest (some u) n backoff attempts).result = .error f ∧
    (makeRequest (some u) n backoff attempts).attemptsMade = n ∧
    (makeRequest (some u) n backoff attempts).sleeps =
      (List.range (n - 1)).map (fun k => backoff ^ k) ∧
    (∃ m, f = .connectionFault m ∨ f = .timeoutFault m ∨ f = .protocolFault m) := by
  have hmr : makeRequest (some u) n backoff attempts =
      makeRequestGo attempts backoff n n 0 none [] := rfl
  have h := makeRequestGo_all_fail attempts backoff n f hfail n 0 none [] (by omega) hn
  rw [hmr, h]
  refine ⟨rfl, rfl, ?_, ?_⟩
  · simp
  · cases f with
    | connectionFault m => exact ⟨m, Or.inl rfl⟩
    | timeoutFault m => exact ⟨m, Or.inr (Or.inl rfl)⟩
    | protocolFault m => exact ⟨m, Or.inr (Or.inr rfl)⟩

/-- Witness for C6_retry_backoff_typed_fault: with backoff_factor 2 and
max_retries 3, a persistently connection-refused call waits 1 then 2
units across the three attempts and raises the connection fault. -/
theorem C6_witness :
    (makeRequest (some "http://node") 3 2 (fun _ => .connectionErr "refused")).result =
      .error (.connectionFault "Connection error: refused") ∧
    (makeRequest (some "http://node") 3 2 (fun _ => .connectionErr "refused")).attemptsMade = 3 ∧
    (makeRequest (some "http://node") 3 2 (fun _ => .connectionErr "refused")).sleeps =
      [1, 2] := by
  obtain ⟨h1, h2, h3, _⟩ :=
    C6_retry_backoff_typed_fault "http://node" 3 (by omega) 2
      (fun _ => .connectionErr "refused")
      (.connectionFault "Connection error: refused")
      (fun j hj => rfl)
  refine ⟨h1, h2, ?_⟩
  rw [h3]
  norm_num [List.range_succ]

/-! ## Health checks (rpc_client.py health_check) -/

/-- Outcome of the single health-check HTTP call: a response with its
status and its JSON body (none when response.json() raises), a timeout,
a transport (aiohttp client) error, or any other exception — the last
three are all caught by the except arm. -/
inductive HealthOutcome
| httpResponse (status : Nat) (body : Option (List (String × String)))
| timeoutErr
| clientErr (msg : String)
| otherExc (msg : String)
deriving DecidableEq

/-- The network-specific lightweight method of
_get_health_check_payload. -/
def healthCheckMethod : NetworkType → String
| .eth => "eth_chainId"
| .btc => "getblockchaininfo"
| .sol => "getHealth"
| .ltc => "getblockchaininfo"

/-- Python dict key-presence ("error" in data). -/
def hasKey (body : List (String × String)) (k : String) : Bool :=
  (alistGet body k).isSome

/-- health_check: false when no URL is configured; issue one call with
the method of the network's health payload and the fixed 2-second
timeout (the oracle takes the method and the timeout actually used);
healthy iff the status is 200 and the body has no "error" key; every
exception is caught and yields false. -/
def healthCheck (cfg : RPCConfig) (network : NetworkType)
    (net : String → ℚ → HealthOutcome) : Bool :=
  match getRpcUrl cfg network with
  | none => false
  | some _ =>
    match net (healthCheckMethod network) 2 with
    | .httpResponse status (some body) => status == 200 && !(hasKey body "error")
    | .httpResponse _ none => false
    | .timeoutErr => false
    | .clientErr _ => false
    | .otherExc _ => false

/-- An ETH-only configuration with general timeout 10. -/
def c8Config : RPCConfig :=
  { eth_rpc_url := some "http://node"
    btc_rpc_url := none
    sol_rpc_url := none
    ltc_rpc_url := none
    timeout := 10
    max_retries := 3
    backoff_factor := 2 }

/-- C8 counterexample: a 201 response (a 2xx status) with a JSON body
carrying no error field makes healthCheck return false, where the claim
("false on non-2xx …, true otherwise") predicts true — the code tests
status == 200 exactly, not 2xx membership. -/
theorem C8_counterexample :
    healthCheck c8Config .eth
      (fun _ _ => .httpResponse 201 (some [("result", "ok")])) = false ∧
    (200 ≤ 201 ∧ 201 < 300) ∧
    hasKey [("result", "ok")] "error" = false := by
  exact ⟨rfl, by omega, rfl⟩

/-- C8 (amended): healthCheck is a total Boolean function (it never
raises); it issues one network-specific lightweight call with the fixed
2-second timeout independent of the client's configured general
timeout, and returns true exactly when an endpoint is configured and
that call yields an HTTP response with status exactly 200 (not merely
2xx) whose JSON body parses and has no "error" key; any timeout,
transport error, other exception, non-JSON body, error key, or status
other than 200 yields false. -/
theorem C8_amended_health_check (cfg : RPCConfig) (network : NetworkType)
    (net : String → ℚ → HealthOutcome) :
    (healthCheck cfg network net = true ↔
      ((getRpcUrl cfg network).isSome ∧
        ∃ body, net (healthCheckMethod network) 2 = .httpResponse 200 (some body) ∧
          hasKey body "error" = false)) ∧
    (∀ t : ℚ, healthCheck { cfg with timeout := t } network net =
      healthCheck cfg network net) := by
  constructor
  · cases hu : getRpcUrl cfg network with
    | none => simp [healthCheck, hu]
    | some u =>
      cases hnet : net (healthCheckMethod network) 2 with
      | httpResponse status obody =>
        cases obody with
        | none => simp [healthCheck, hu, hnet]
        | some body =>
          simp [healthCheck, hu, hnet]
          constructor
          · rintro ⟨hs, hk⟩
            exact ⟨body, ⟨hs, rfl⟩, hk⟩
          · rintro ⟨b, ⟨hs, hb⟩, hk⟩
            exact ⟨hs, hb ▸ hk⟩
      | timeoutErr => simp [healthCheck, hu, hnet]
      | clientErr m => simp [healthCheck, hu, hnet]
      | otherExc m => simp [healthCheck, hu, hnet]
  · intro t
    cases network <;> rfl

/-- Witness for C8_amended_health_check: a 200 no-error response is
healthy, and changing the configured general timeout from 10 to 99 does
not change the outcome. -/
theorem C8_amended_witness :
    healthCheck c8Config .eth
      (fun _ _ => .httpResponse 200 (some [("result", "ok")])) = true ∧
    healthCheck { c8Config with timeout := 99 } .eth
      (fun _ _ => .httpResponse 200 (some [("result", "ok")])) =
      healthCheck c8Config .eth
        (fun _ _ => .httpResponse 200 (some [("result", "ok")])) := by
  obtain ⟨hiff, hind⟩ :=
    C8_amended_health_check c8Config .eth
      (fun _ _ => .httpResponse 200 (some [("result", "ok")]))
  exact ⟨hiff.mpr ⟨rfl, [("result", "ok")], rfl, rfl⟩, hind 99⟩

end Law
